import Mathlib

/-
Verification of core/asset/account.go: reservation-to-template orchestration
(AccountReserver.Reserve), change splitting (breakupChange), destination
allocation (NewAccountDestination / AccountReceiver), reservation
cancellation (CancelReservations) and account annotation (LoadAccountInfo).

The external collaborators (utxodb, accounts, signers, hd25519, txscript,
pg) live outside this package; they are modelled as abstract capabilities,
exactly as the specification's §6 interface contracts describe them.
Machine integers (uint64 amounts) are modelled as Nat together with the
explicit overflow facts that matter: inside breakupChange the Go source
converts the uint64 `total` to int64 before calling rand.Int63n, which
panics on a nonpositive argument, i.e. whenever 2^63 ≤ total < 2^64.
-/

set_option autoImplicit false
set_option linter.unusedVariables false

namespace ChainAsset

/-- A Go error value: `kind` identifies the root error (what
`errors.Root` recovers, preserved by `errors.Wrap`), `msgs` is the stack
of wrap messages, outermost first. -/
structure GoErr where
  kind : Nat
  msgs : List String
deriving DecidableEq, Repr

/-- `errors.Wrap(err, msg)`: prefixes a stage message and keeps the root kind. -/
def wrapErr (msg : String) (e : GoErr) : GoErr := ⟨e.kind, msg :: e.msgs⟩

instance {ε α : Type} [DecidableEq ε] [DecidableEq α] : DecidableEq (Except ε α) := fun x y =>
  match x, y with
  | .error e, .error e' =>
    if h : e = e' then .isTrue (h ▸ rfl) else .isFalse (fun hc => h (Except.error.inj hc))
  | .error _, .ok _ => .isFalse (fun hc => Except.noConfusion hc)
  | .ok _, .error _ => .isFalse (fun hc => Except.noConfusion hc)
  | .ok a, .ok b =>
    if h : a = b then .isTrue (h ▸ rfl) else .isFalse (fun hc => h (Except.ok.inj hc))

/-- Result of running the randomized `breakupChange`: a normal return, a
run-time failure of `rand.Int63n` (its argument `int64(total)` is
nonpositive exactly when `2^63 ≤ total`, for uint64 totals), or fuel
exhaustion, which is provably unreachable when the fuel is at least
`total` (see `breakupChangeLoop_ne_outOfFuel`). -/
inductive RunResult where
  | ok : List Nat → RunResult
  | crash : RunResult
  | outOfFuel : RunResult
deriving DecidableEq, Repr

/-- The loop of `breakupChange` (account.go lines 94-99), one unit of fuel
per iteration.  `flips i` models the i-th draw of `rand.Intn(2)` and
`draws i` the i-th draw of `rand.Int63n(int64(total))`; both are reduced
into range (`% 2`, resp. `1 + _ % total` giving `thisChange ∈ [1,total]`),
so quantifying over all oracles covers exactly the possible executions.
`total -= thisChange` cannot wrap because `thisChange ≤ total`. -/
def breakupChangeLoop (flips draws : Nat → Nat) : Nat → Nat → Nat → RunResult
  | fuel, i, total =>
    if 1 < total ∧ flips i % 2 = 0 then
      match fuel with
      | 0 => .outOfFuel
      | f + 1 =>
        if 2 ^ 63 ≤ total then .crash
        else
          match breakupChangeLoop flips draws f (i + 1) (total - (1 + draws i % total)) with
          | .ok amounts => .ok ((1 + draws i % total) :: amounts)
          | r => r
    else if 0 < total then .ok [total] else .ok []

/-- `breakupChange` (account.go lines 93-103), with fuel `total`, which is
always sufficient (`breakupChangeLoop_ne_outOfFuel`). -/
def breakupChange (flips draws : Nat → Nat) (total : Nat) : RunResult :=
  breakupChangeLoop flips draws total 0 total

theorem breakupChangeLoop_ok (flips draws : Nat → Nat) :
    ∀ fuel i total amounts,
      breakupChangeLoop flips draws fuel i total = .ok amounts →
      amounts.sum = total ∧ (∀ x ∈ amounts, 0 < x) ∧ (0 < total → amounts ≠ []) := by
  intro fuel
  induction fuel with
  | zero =>
    intro i total amounts h
    rw [breakupChangeLoop] at h
    split at h
    · exact absurd h (by simp)
    · rename_i hcond
      split at h <;> rename_i htot <;> cases h
      · exact ⟨by simp, by simp_all, fun _ => by simp⟩
      · exact ⟨by simpa using by omega, by simp, fun hc => absurd hc (by omega)⟩
  | succ f ih =>
    intro i total amounts h
    rw [breakupChangeLoop] at h
    split at h
    · rename_i hcond
      split at h
      · exact absurd h (by simp)
      · rename_i hbig
        cases heq : breakupChangeLoop flips draws f (i + 1) (total - (1 + draws i % total)) with
        | ok amounts' =>
          rw [heq] at h
          simp only [] at h
          cases h
          obtain ⟨hsum, hpos, -⟩ := ih _ _ _ heq
          have hlt : draws i % total < total := Nat.mod_lt _ (by omega)
          refine ⟨?_, ?_, fun _ => by simp⟩
          · simp only [List.sum_cons, hsum]; omega
          · intro x hx
            rcases List.mem_cons.mp hx with h1 | h1
            · omega
            · exact hpos x h1
        | crash => rw [heq] at h; exact absurd h (by simp)
        | outOfFuel => rw [heq] at h; exact absurd h (by simp)
    · rename_i hcond
      split at h <;> rename_i htot <;> cases h
      · exact ⟨by simp, by simp_all, fun _ => by simp⟩
      · exact ⟨by simpa using by omega, by simp, fun hc => absurd hc (by omega)⟩

theorem breakupChangeLoop_ne_outOfFuel (flips draws : Nat → Nat) :
    ∀ fuel i total, total ≤ fuel →
      breakupChangeLoop flips draws fuel i total ≠ .outOfFuel := by
  intro fuel
  induction fuel with
  | zero =>
    intro i total hle
    rw [breakupChangeLoop]
    split
    · rename_i hcond; omega
    · split <;> simp
  | succ f ih =>
    intro i total hle
    rw [breakupChangeLoop]
    split
    · rename_i hcond
      split
      · simp
      · rename_i hbig
        have hlt : draws i % total < total := Nat.mod_lt _ (by omega)
        have hrec := ih (i + 1) (total - (1 + draws i % total)) (by omega)
        cases heq : breakupChangeLoop flips draws f (i + 1) (total - (1 + draws i % total)) with
        | ok amounts' => simp
        | crash => simp
        | outOfFuel => exact absurd heq hrec
    · split <;> simp

theorem breakupChangeLoop_exists_ok (flips draws : Nat → Nat) :
    ∀ fuel i total, total ≤ fuel → total < 2 ^ 63 →
      ∃ amounts, breakupChangeLoop flips draws fuel i total = .ok amounts := by
  intro fuel
  induction fuel with
  | zero =>
    intro i total hle hsmall
    rw [breakupChangeLoop]
    split
    · rename_i hcond; omega
    · split <;> exact ⟨_, rfl⟩
  | succ f ih =>
    intro i total hle hsmall
    rw [breakupChangeLoop]
    split
    · rename_i hcond
      split
      · rename_i hbig; omega
      · rename_i hbig
        have hlt : draws i % total < total := Nat.mod_lt _ (by omega)
        obtain ⟨amounts, hA⟩ :=
          ih (i + 1) (total - (1 + draws i % total)) (by omega) (by omega)
        rw [hA]
        exact ⟨_, rfl⟩
    · split <;> exact ⟨_, rfl⟩

theorem breakupChangeLoop_length (flips draws : Nat → Nat) :
    ∀ fuel i total amounts,
      breakupChangeLoop flips draws fuel i total = .ok amounts →
      amounts.length ≤ max total 1 := by
  intro fuel
  induction fuel with
  | zero =>
    intro i total amounts h
    rw [breakupChangeLoop] at h
    split at h
    · exact absurd h (by simp)
    · split at h <;> cases h <;> simp
  | succ f ih =>
    intro i total amounts h
    rw [breakupChangeLoop] at h
    split at h
    · rename_i hcond
      split at h
      · exact absurd h (by simp)
      · rename_i hbig
        cases heq : breakupChangeLoop flips draws f (i + 1) (total - (1 + draws i % total)) with
        | ok amounts' =>
          rw [heq] at h
          simp only [] at h
          cases h
          have hlt : draws i % total < total := Nat.mod_lt _ (by omega)
          have := ih _ _ _ heq
          simp only [List.length_cons]
          omega
        | crash => rw [heq] at h; exact absurd h (by simp)
        | outOfFuel => rw [heq] at h; exact absurd h (by simp)
    · split at h <;> cases h <;> simp

theorem breakupChange_zero (flips draws : Nat → Nat) :
    breakupChange flips draws 0 = .ok [] := by
  rw [breakupChange, breakupChangeLoop]
  norm_num

theorem breakupChange_one (flips draws : Nat → Nat) :
    breakupChange flips draws 1 = .ok [1] := by
  rw [breakupChange, breakupChangeLoop]
  norm_num

/-- bc.AssetAmount. -/
structure AssetAmount where
  assetID : Nat
  amount : Nat
deriving DecidableEq, Repr

/-- utxodb.Source, as filled in by Reserve (account.go lines 30-38). -/
structure Source where
  assetID : Nat
  amount : Nat
  accountID : String
  txHash : Option Nat
  outputIndex : Option Nat
  clientToken : Option String
deriving DecidableEq, Repr

/-- A reserved output as consumed by Reserve: the fields of utxodb's
reserved UTXOs the loop reads (Hash, Index, AssetID, Amount, Script,
AccountID, ControlProgramIndex). -/
structure UTXO where
  hash : Nat
  index : Nat
  assetID : Nat
  amount : Nat
  script : List Nat
  accountID : String
  controlProgramIndex : List Nat
deriving DecidableEq, Repr

/-- Modelled from the spec: utxodb's change buckets (§6 changeBuckets,
list of asset/amount pairs); Reserve only ever reads `(change[0]).Amount`. -/
structure ChangeBucket where
  assetID : Nat
  amount : Nat
deriving DecidableEq, Repr

/-- Modelled from the spec: the account row returned by accounts.Find
(§3 Account): extended public keys and quorum. -/
structure Account where
  xpubs : List Nat
  quorum : Nat
deriving DecidableEq, Repr

/-- bc.NewSpendInput(r.Hash, r.Index, nil, r.AssetID, r.Amount, r.Script, nil). -/
structure SpendInput where
  hash : Nat
  index : Nat
  assetID : Nat
  amount : Nat
  script : List Nat
deriving DecidableEq, Repr

/-- Modelled from the spec: txbuilder.Input (§3 TemplateInput): asset and
amount copied in, signer placeholders added by AddWitnessSigs together with
the quorum, and witness data added by AddWitnessData. -/
structure TemplateInput where
  assetID : Nat
  amount : Nat
  sigs : List Nat
  quorum : Nat
  witnessData : List (List Nat)
deriving DecidableEq, Repr

/-- txbuilder.ReserveResultItem. -/
structure ReserveResultItem where
  txInput : SpendInput
  templateInput : TemplateInput
deriving DecidableEq, Repr

/-- AccountReceiver (account.go lines 117-122). -/
structure AccountReceiver where
  controlProgram : List Nat
  accountID : String
deriving DecidableEq, Repr

/-- AccountReceiver.PKScript (account.go line 123). -/
def AccountReceiver.PKScript (r : AccountReceiver) : List Nat := r.controlProgram

/-- NewAccountReceiver (account.go lines 125-126). -/
def NewAccountReceiver (controlProgram : List Nat) (accountID : String) : AccountReceiver :=
  ⟨controlProgram, accountID⟩

/-- Modelled from the spec: txbuilder.Destination (§3 Destination):
asset amount, opaque metadata, receiver capability. -/
structure Destination where
  assetAmount : AssetAmount
  metadata : List Nat
  receiver : AccountReceiver
deriving DecidableEq, Repr

/-- txbuilder.ReserveResult: ordered items plus change destinations. -/
structure ReserveResult where
  items : List ReserveResultItem
  change : List Destination
deriving DecidableEq, Repr

/-- AccountReserver (account.go lines 22-27). -/
structure AccountReserver where
  accountID : String
  txHash : Option Nat
  outputIndex : Option Nat
  clientToken : Option String
deriving DecidableEq, Repr

/-- The external collaborators of account.go as abstract capabilities
(spec §6).  `σ` is the persistent state of the account directory,
threaded through control-program allocation so that each allocation can
produce a fresh program. -/
structure Env (σ : Type) where
  utxodbReserve : List Source → Nat → Except GoErr (List UTXO × List ChangeBucket)
  accountsFind : String → Except GoErr Account
  signersPath : Account → List Nat → List Nat
  deriveXPubs : List Nat → List Nat → List Nat
  xPubKeys : List Nat → List Nat
  multiSigScript : List Nat → Nat → Except GoErr (List Nat)
  inputSigs : List Nat → List Nat → List Nat
  createControlProgram : σ → String → Except GoErr (List Nat × σ)
  utxodbCancel : List (Nat × Nat) → Except GoErr Unit

/-- NewAccountDestination (account.go lines 128-139): allocate a fresh
control program for the account, then wrap it with the asset amount and
metadata; allocation errors propagate unchanged. -/
def NewAccountDestination {σ : Type} (env : Env σ) (st : σ) (assetAmount : AssetAmount)
    (accountID : String) (metadata : List Nat) : Except GoErr (Destination × σ) :=
  match env.createControlProgram st accountID with
  | .error e => .error e
  | .ok (acp, st') => .ok (⟨assetAmount, metadata, NewAccountReceiver acp accountID⟩, st')

/-- The utxodb.Source Reserve builds from its receiver and arguments
(account.go lines 30-38). -/
def mkSource (reserver : AccountReserver) (assetAmount : AssetAmount) : Source :=
  ⟨assetAmount.assetID, assetAmount.amount, reserver.accountID,
   reserver.txHash, reserver.outputIndex, reserver.clientToken⟩

/-- The body of Reserve's per-reserved-output loop (account.go lines
45-71): build the spend input, look up the account (wrap failures with
"get account info"), derive the per-output keys along the account
key-space path at the output's control-program index, build the
quorum-of-N redeem script (wrap failures with "compute redeem script"),
and assemble the template input. -/
def buildItem {σ : Type} (env : Env σ) (r : UTXO) : Except GoErr ReserveResultItem :=
  match env.accountsFind r.accountID with
  | .error e => .error (wrapErr "get account info" e)
  | .ok inputAccount =>
    match env.multiSigScript
        (env.xPubKeys (env.deriveXPubs inputAccount.xpubs
          (env.signersPath inputAccount r.controlProgramIndex)))
        inputAccount.quorum with
    | .error e => .error (wrapErr "compute redeem script" e)
    | .ok redeemScript =>
      .ok ⟨⟨r.hash, r.index, r.assetID, r.amount, r.script⟩,
           ⟨r.assetID, r.amount,
            env.inputSigs inputAccount.xpubs
              (env.signersPath inputAccount r.controlProgramIndex),
            inputAccount.quorum, [redeemScript]⟩⟩

/-- Reserve's loop over the reserved outputs, in order, stopping at the
first error (account.go lines 45-73). -/
def buildItems {σ : Type} (env : Env σ) : List UTXO → Except GoErr (List ReserveResultItem)
  | [] => .ok []
  | r :: rs =>
    match buildItem env r with
    | .error e => .error e
    | .ok item =>
      match buildItems env rs with
      | .error e => .error e
      | .ok rest => .ok (item :: rest)

/-- Reserve's change loop (account.go lines 80-87): one
NewAccountDestination call per change amount, sequentially, each with the
requested asset and the reserver's account, metadata nil; failures are
wrapped with "creating change destination". -/
def makeChange {σ : Type} (env : Env σ) (aid : Nat) (accountID : String) :
    σ → List Nat → Except GoErr (List Destination × σ)
  | st, [] => .ok ([], st)
  | st, amt :: amts =>
    match NewAccountDestination env st ⟨aid, amt⟩ accountID [] with
    | .error e => .error (wrapErr "creating change destination" e)
    | .ok (dest, st') =>
      match makeChange env aid accountID st' amts with
      | .error e => .error e
      | .ok (dests, st'') => .ok (dest :: dests, st'')

/-- Outcome of a Reserve call: a normal result with the directory state
after the change allocations, an error, or a run-time crash propagated
from breakupChange. -/
inductive Outcome (σ : Type) where
  | ok : ReserveResult → σ → Outcome σ
  | err : GoErr → Outcome σ
  | crash : Outcome σ
deriving DecidableEq, Repr

/-- The change-handling tail of Reserve (account.go lines 74-88): when the
engine reported at least one change bucket, split the FIRST bucket's
amount with breakupChange and allocate one destination per piece; any
further buckets are ignored (the `c0 :: _` pattern reads only the head,
exactly as `change[0]` does). -/
def reserveChange {σ : Type} (env : Env σ) (flips draws : Nat → Nat)
    (reserver : AccountReserver) (assetAmount : AssetAmount) (st : σ)
    (items : List ReserveResultItem) : List ChangeBucket → Outcome σ
  | [] => .ok ⟨items, []⟩ st
  | c0 :: _ =>
    match breakupChange flips draws c0.amount with
    | .ok changeAmounts =>
      match makeChange env assetAmount.assetID reserver.accountID st changeAmounts with
      | .error e => .err e
      | .ok (dests, st') => .ok ⟨items, dests⟩ st'
    | _ => .crash

/-- AccountReserver.Reserve (account.go lines 29-91): one engine claim
request for a single source; engine errors propagate unchanged; then the
per-output item loop, then the change loop. -/
def Reserve {σ : Type} (env : Env σ) (flips draws : Nat → Nat)
    (reserver : AccountReserver) (assetAmount : AssetAmount) (ttl : Nat) (st : σ) :
    Outcome σ :=
  match env.utxodbReserve [mkSource reserver assetAmount] ttl with
  | .error e => .err e
  | .ok (reserved, change) =>
    match buildItems env reserved with
    | .error e => .err e
    | .ok items => reserveChange env flips draws reserver assetAmount st items change

/-- NewAccountSource (account.go lines 105-115): wraps an AccountReserver
with the asset amount; txbuilder.Source is modelled by its two fields. -/
def NewAccountSource (assetAmount : AssetAmount) (accountID : String)
    (txHash : Option Nat) (outputIndex : Option Nat) (clientToken : Option String) :
    AssetAmount × AccountReserver :=
  (assetAmount, ⟨accountID, txHash, outputIndex, clientToken⟩)

/-- CancelReservations (account.go lines 141-145): delegates to
utxodb.Cancel. -/
def CancelReservations {σ : Type} (env : Env σ) (outpoints : List (Nat × Nat)) :
    Except GoErr Unit :=
  env.utxodbCancel outpoints

theorem buildItem_ok {σ : Type} (env : Env σ) (r : UTXO) (item : ReserveResultItem)
    (h : buildItem env r = .ok item) :
    ∃ acct redeemScript,
      env.accountsFind r.accountID = .ok acct ∧
      env.multiSigScript
          (env.xPubKeys (env.deriveXPubs acct.xpubs
            (env.signersPath acct r.controlProgramIndex)))
          acct.quorum = .ok redeemScript ∧
      item = ⟨⟨r.hash, r.index, r.assetID, r.amount, r.script⟩,
              ⟨r.assetID, r.amount,
               env.inputSigs acct.xpubs (env.signersPath acct r.controlProgramIndex),
               acct.quorum, [redeemScript]⟩⟩ := by
  rw [buildItem] at h
  split at h
  · exact absurd h (by simp)
  · rename_i acct hfind
    split at h
    · exact absurd h (by simp)
    · rename_i redeemScript hms
      cases h
      exact ⟨acct, redeemScript, hfind, hms, rfl⟩

theorem buildItems_ok {σ : Type} (env : Env σ) :
    ∀ rs items, buildItems env rs = .ok items →
      List.Forall₂ (fun r item => buildItem env r = .ok item) rs items := by
  intro rs
  induction rs with
  | nil =>
    intro items h
    rw [buildItems] at h
    cases h
    exact List.Forall₂.nil
  | cons r rs ih =>
    intro items h
    rw [buildItems] at h
    split at h
    · exact absurd h (by simp)
    · rename_i item hitem
      split at h
      · exact absurd h (by simp)
      · rename_i rest hrest
        cases h
        exact List.Forall₂.cons hitem (ih rest hrest)

theorem buildItems_amounts {σ : Type} (env : Env σ) :
    ∀ rs items, buildItems env rs = .ok items →
      items.map (fun it => it.txInput.amount) = rs.map UTXO.amount := by
  intro rs
  induction rs with
  | nil =>
    intro items h
    rw [buildItems] at h
    cases h
    simp
  | cons r rs ih =>
    intro items h
    rw [buildItems] at h
    split at h
    · exact absurd h (by simp)
    · rename_i item hitem
      split at h
      · exact absurd h (by simp)
      · rename_i rest hrest
        cases h
        obtain ⟨acct, redeemScript, -, -, hval⟩ := buildItem_ok env r item hitem
        simp [ih rest hrest, hval]

theorem makeChange_ok {σ : Type} (env : Env σ) (aid : Nat) (accountID : String) :
    ∀ amts st dests st'', makeChange env aid accountID st amts = .ok (dests, st'') →
      dests.map (fun d => d.assetAmount.amount) = amts ∧
      ∀ d ∈ dests, d.assetAmount.assetID = aid ∧
        d.receiver.accountID = accountID ∧ d.metadata = [] := by
  intro amts
  induction amts with
  | nil =>
    intro st dests st'' h
    rw [makeChange] at h
    cases h
    exact ⟨rfl, by simp⟩
  | cons amt amts ih =>
    intro st dests st'' h
    rw [makeChange] at h
    cases hdest : NewAccountDestination env st ⟨aid, amt⟩ accountID [] with
    | error e => rw [hdest] at h; exact absurd h (by simp)
    | ok p =>
      obtain ⟨dest, st'⟩ := p
      rw [hdest] at h
      simp only [] at h
      cases hrest : makeChange env aid accountID st' amts with
      | error e => rw [hrest] at h; exact absurd h (by simp)
      | ok q =>
        obtain ⟨rest, strest⟩ := q
        rw [hrest] at h
        simp only [] at h
        cases h
        obtain ⟨hmap, hall⟩ := ih _ _ _ hrest
        rw [NewAccountDestination] at hdest
        cases hacp : env.createControlProgram st accountID with
        | error e => rw [hacp] at hdest; exact absurd hdest (by simp)
        | ok w =>
          obtain ⟨acp, stx⟩ := w
          rw [hacp] at hdest
          simp only [] at hdest
          cases hdest
          refine ⟨by simp [hmap], ?_⟩
          intro d hd
          rcases List.mem_cons.mp hd with h1 | h1
          · subst h1; exact ⟨rfl, rfl, rfl⟩
          · exact hall d h1

theorem Reserve_ok_inv {σ : Type} (env : Env σ) (flips draws : Nat → Nat)
    (reserver : AccountReserver) (assetAmount : AssetAmount) (ttl : Nat) (st : σ)
    (res : ReserveResult) (st' : σ)
    (h : Reserve env flips draws reserver assetAmount ttl st = .ok res st') :
    ∃ reserved change items,
      env.utxodbReserve [mkSource reserver assetAmount] ttl = .ok (reserved, change) ∧
      buildItems env reserved = .ok items ∧
      reserveChange env flips draws reserver assetAmount st items change =
        .ok res st' := by
  rw [Reserve] at h
  cases heng : env.utxodbReserve [mkSource reserver assetAmount] ttl with
  | error e => rw [heng] at h; exact absurd h (by simp)
  | ok p =>
    obtain ⟨reserved, change⟩ := p
    rw [heng] at h
    simp only [] at h
    cases hitems : buildItems env reserved with
    | error e => rw [hitems] at h; exact absurd h (by simp)
    | ok items =>
      rw [hitems] at h
      simp only [] at h
      exact ⟨reserved, change, items, rfl, hitems, h⟩

theorem reserveChange_ok_inv {σ : Type} (env : Env σ) (flips draws : Nat → Nat)
    (reserver : AccountReserver) (assetAmount : AssetAmount) (st : σ)
    (items : List ReserveResultItem) (c0 : ChangeBucket) (rest : List ChangeBucket)
    (res : ReserveResult) (st' : σ)
    (h : reserveChange env flips draws reserver assetAmount st items (c0 :: rest) =
      .ok res st') :
    ∃ amts dests,
      breakupChange flips draws c0.amount = .ok amts ∧
      makeChange env assetAmount.assetID reserver.accountID st amts = .ok (dests, st') ∧
      res = ⟨items, dests⟩ := by
  rw [reserveChange] at h
  split at h
  · rename_i amts hbc
    split at h
    · exact absurd h (by simp)
    · rename_i dests stx hmc
      cases h
      exact ⟨amts, dests, hbc, hmc, rfl⟩
  · exact absurd h (by simp)

theorem reserveChange_nil_inv {σ : Type} (env : Env σ) (flips draws : Nat → Nat)
    (reserver : AccountReserver) (assetAmount : AssetAmount) (st : σ)
    (items : List ReserveResultItem) (res : ReserveResult) (st' : σ)
    (h : reserveChange env flips draws reserver assetAmount st items [] = .ok res st') :
    res = ⟨items, []⟩ ∧ st' = st := by
  rw [reserveChange] at h
  cases h
  exact ⟨rfl, rfl⟩

/-- state.Output as consumed by LoadAccountInfo: only the control program
is inspected; the other ledger fields ride along. -/
structure StateOutput where
  outpointHash : Nat
  outpointIndex : Nat
  assetID : Nat
  amount : Nat
  controlProgram : List Nat
deriving DecidableEq, Repr

/-- One row of the batched `account_control_programs` index query:
signer_id, key_index, control_program. -/
structure IndexRow where
  accountID : String
  keyIndex : List Nat
  program : List Nat
deriving DecidableEq, Repr

/-- Modelled from the spec: the annotated `output` struct (§3
AnnotatedOutput — a raw output plus accountID and key-index path); the
struct declaration itself lives outside this file's source. -/
structure AnnotatedOutput where
  out : StateOutput
  accountID : String
  keyIndex : List Nat
deriving DecidableEq, Repr

/-- The distinct control programs of the input outputs, i.e. the key set
of Go's `outsByScript` map (account.go lines 156-165; Go enumerates map
keys in unspecified order, so any enumeration of the distinct programs is
a faithful determinization). -/
def distinctScripts (outs : List StateOutput) : List (List Nat) :=
  (outs.map (fun o => o.controlProgram)).dedup

/-- The body of the query-row callback (account.go lines 175-183):
annotate every output of the row's control-program group — i.e. the Go
map entry `outsByScript[string(program)]`, which holds the inputs with
that program in input order — with the row's account ID and key index. -/
def annotateRow (outs : List StateOutput) (row : IndexRow) : List AnnotatedOutput :=
  (outs.filter fun o => o.controlProgram == row.program).map
    fun o => ⟨o, row.accountID, row.keyIndex⟩

/-- LoadAccountInfo (account.go lines 147-189): group the outputs by
control program, issue one batched index query over the distinct
programs, and annotate each returned row's whole group; rows whose
program matches no input contribute nothing, programs with no row are
dropped, and only a query failure is an error. -/
def LoadAccountInfo (query : List (List Nat) → Except GoErr (List IndexRow))
    (outs : List StateOutput) : Except GoErr (List AnnotatedOutput) :=
  match query (distinctScripts outs) with
  | .error e => .error e
  | .ok rows => .ok (rows.flatMap (annotateRow outs))

theorem filter_annotateRow (outs : List StateOutput) (row : IndexRow) (p : List Nat) :
    (annotateRow outs row).filter (fun a => a.out.controlProgram == p) =
      if row.program = p then annotateRow outs row else [] := by
  rw [annotateRow]
  by_cases hp : row.program = p
  · subst hp
    rw [if_pos rfl]
    rw [List.filter_map]
    congr 1
    rw [List.filter_filter]
    apply List.filter_congr
    intro o ho
    simp
  · rw [if_neg hp]
    rw [List.filter_map]
    have : (outs.filter fun o => o.controlProgram == row.program).filter
        ((fun a : AnnotatedOutput => a.out.controlProgram == p) ∘
          (fun o => (⟨o, row.accountID, row.keyIndex⟩ : AnnotatedOutput))) = [] := by
      rw [List.filter_filter]
      apply List.filter_eq_nil_iff.mpr
      intro o ho
      simp only [Function.comp]
      intro hcontra
      simp only [Bool.and_eq_true, beq_iff_eq] at hcontra
      exact hp (hcontra.1 ▸ hcontra.2.symm ▸ rfl)
    rw [this, List.map_nil]

theorem length_annotateRow (outs : List StateOutput) (row : IndexRow) :
    (annotateRow outs row).length =
      (outs.filter fun o => o.controlProgram == row.program).length := by
  rw [annotateRow, List.length_map]

theorem length_filter_flatMap_annotateRow (outs : List StateOutput) (p : List Nat) :
    ∀ rows : List IndexRow,
      ((rows.flatMap (annotateRow outs)).filter
        (fun a => a.out.controlProgram == p)).length =
      (rows.filter (fun row => row.program == p)).length *
        (outs.filter (fun o => o.controlProgram == p)).length := by
  intro rows
  induction rows with
  | nil => simp
  | cons row rows ih =>
    rw [List.flatMap_cons, List.filter_append, List.length_append, ih,
      filter_annotateRow]
    by_cases hp : row.program = p
    · rw [if_pos hp, List.filter_cons_of_pos (by simpa using hp),
        List.length_cons, length_annotateRow, hp, Nat.succ_mul]
      omega
    · rw [if_neg hp, List.filter_cons_of_neg (by simpa using hp), List.length_nil]
      omega

theorem mem_flatMap_annotateRow (outs : List StateOutput) (rows : List IndexRow)
    (a : AnnotatedOutput) (ha : a ∈ rows.flatMap (annotateRow outs)) :
    ∃ row ∈ rows, a.out.controlProgram = row.program ∧
      a.accountID = row.accountID ∧ a.keyIndex = row.keyIndex ∧ a.out ∈ outs := by
  rw [List.mem_flatMap] at ha
  obtain ⟨row, hrow, hmem⟩ := ha
  rw [annotateRow, List.mem_map] at hmem
  obtain ⟨o, ho, rfl⟩ := hmem
  rw [List.mem_filter] at ho
  exact ⟨row, hrow, by simpa using ho.2, rfl, rfl, ho.1⟩

theorem mem_of_length_le_one {α : Type} {l : List α} (h : l.length ≤ 1)
    {x y : α} (hx : x ∈ l) (hy : y ∈ l) : x = y := by
  match l with
  | [] => cases hx
  | [a] =>
    rw [List.mem_singleton] at hx hy
    rw [hx, hy]
  | a :: b :: t => simp at h

/-- A concrete collaborator environment for witnesses and counterexamples:
the directory state is a counter; engine, account lookup, script builder
and allocator behaviors are passed in directly. -/
def mkTestEnv (engine : Except GoErr (List UTXO × List ChangeBucket))
    (findRes : Except GoErr Account) (msRes : Except GoErr (List Nat))
    (ccp : Nat → String → Except GoErr (List Nat × Nat)) : Env Nat where
  utxodbReserve := fun _ _ => engine
  accountsFind := fun _ => findRes
  signersPath := fun _ idx => 0 :: idx
  deriveXPubs := fun xs path => xs.map (fun x => x + path.sum)
  xPubKeys := fun xs => xs.map (fun x => 2 * x)
  multiSigScript := fun _ _ => msRes
  inputSigs := fun xs path => xs.map (fun x => x + path.length)
  createControlProgram := ccp
  utxodbCancel := fun _ => .ok ()

/-- A directory allocator that returns the fresh program `[counter]` and
bumps the counter. -/
def ccpCounter : Nat → String → Except GoErr (List Nat × Nat) :=
  fun st _ => .ok ([st], st + 1)

/-- A directory allocator that always fails with a storage error. -/
def ccpFail : Nat → String → Except GoErr (List Nat × Nat) :=
  fun _ _ => .error ⟨9, ["storage failure"]⟩

def testAccount : Account := ⟨[10, 11], 2⟩

def testReserver : AccountReserver := ⟨"acc1", none, none, none⟩

/-- A 3-unit reserved output owned by acc1. -/
def u3 : UTXO := ⟨5, 0, 7, 3, [1, 2], "acc1", [0, 5]⟩

def b1 : ChangeBucket := ⟨7, 1⟩

def b2 : ChangeBucket := ⟨7, 2⟩

def b50 : ChangeBucket := ⟨7, 50⟩

/-- The requested asset amount used in witnesses: 1 unit of asset 7. -/
def aaReq : AssetAmount := ⟨7, 1⟩

/-- C2 counterexample: total = 2^63 is a representable uint64 amount with
total ≥ 1, but when the first coin flip selects a split the loop body
calls rand.Int63n(int64(2^63)), whose argument is the negative int64
-2^63, so the call panics and no sequence at all is returned. -/
theorem breakupChangeLoop_crash (flips draws : Nat → Nat) (f i total : Nat)
    (h1 : 1 < total) (h2 : flips i % 2 = 0) (h3 : 2 ^ 63 ≤ total) :
    breakupChangeLoop flips draws (f + 1) i total = .crash := by
  rw [breakupChangeLoop]
  rw [if_pos ⟨h1, h2⟩]
  rw [if_pos h3]

theorem claim_C2_counterexample :
    breakupChange (fun _ => 0) (fun _ => 0) (2 ^ 63) = .crash ∧
    ¬ ∃ amounts, breakupChange (fun _ => 0) (fun _ => 0) (2 ^ 63) = .ok amounts ∧
        amounts ≠ [] ∧ (∀ x ∈ amounts, 0 < x) ∧ amounts.sum = 2 ^ 63 := by
  have h : breakupChange (fun _ => 0) (fun _ => 0) (2 ^ 63) = .crash := by
    have e63 : (2 : Nat) ^ 63 = 9223372036854775807 + 1 := by norm_num
    rw [breakupChange, e63]
    exact breakupChangeLoop_crash (fun _ => 0) (fun _ => 0) 9223372036854775807 0
      (9223372036854775807 + 1) (by norm_num) rfl (by norm_num)
  refine ⟨h, ?_⟩
  rintro ⟨amounts, hA, -⟩
  rw [h] at hA
  exact absurd hA (by simp)

/-- C2 (amended): for every total with 1 ≤ total < 2^63 — so that
int64(total) is positive and rand.Int63n cannot panic — and every
sequence of random draws, breakupChange(total) returns a non-empty
sequence of strictly positive integers summing exactly to total, and
breakupChange(1) returns exactly [1]. -/
theorem claim_C2_amended (flips draws : Nat → Nat) (total : Nat) :
    (1 ≤ total → total < 2 ^ 63 →
      ∃ amounts, breakupChange flips draws total = .ok amounts ∧
        amounts ≠ [] ∧ (∀ x ∈ amounts, 0 < x) ∧ amounts.sum = total) ∧
    breakupChange flips draws 1 = .ok [1] := by
  constructor
  · intro h1 hsmall
    obtain ⟨amounts, hA⟩ :=
      breakupChangeLoop_exists_ok flips draws total 0 total le_rfl hsmall
    obtain ⟨hsum, hpos, hne⟩ := breakupChangeLoop_ok flips draws total 0 total amounts hA
    exact ⟨amounts, hA, hne h1, hpos, hsum⟩
  · exact breakupChange_one flips draws

theorem claim_C2_amended_witness :
    ∃ amounts, breakupChange (fun _ => 0) (fun _ => 1) 5 = .ok amounts ∧
      amounts ≠ [] ∧ (∀ x ∈ amounts, 0 < x) ∧ amounts.sum = 5 :=
  (claim_C2_amended (fun _ => 0) (fun _ => 1) 5).1 (by decide) (by decide)

/-- C9: breakupChange terminates for every total and every draw sequence:
the loop strictly decreases `total` by at least one per iteration, so
with fuel `total` it never runs out, and a returned sequence never has
more than max(total, 1) elements. -/
theorem claim_C9 (flips draws : Nat → Nat) (fuel i total : Nat) (hfuel : total ≤ fuel) :
    breakupChangeLoop flips draws fuel i total ≠ .outOfFuel ∧
    ∀ amounts, breakupChange flips draws total = .ok amounts →
      amounts.length ≤ max total 1 :=
  ⟨breakupChangeLoop_ne_outOfFuel flips draws fuel i total hfuel,
   fun amounts h => breakupChangeLoop_length flips draws total 0 total amounts h⟩

theorem claim_C9_witness :
    breakupChangeLoop (fun _ => 0) (fun _ => 0) 7 0 7 ≠ .outOfFuel ∧
    ∀ amounts, breakupChange (fun _ => 0) (fun _ => 0) 7 = .ok amounts →
      amounts.length ≤ max 7 1 :=
  claim_C9 (fun _ => 0) (fun _ => 0) 7 0 7 (by decide)

/-- C10: breakupChange(0) returns the empty sequence, and when the first
change bucket reported to Reserve has amount 0 the returned result has no
change destinations at all. -/
theorem claim_C10 {σ : Type} (env : Env σ) (flips draws : Nat → Nat)
    (reserver : AccountReserver) (assetAmount : AssetAmount) (ttl : Nat) (st : σ)
    (res : ReserveResult) (st' : σ) (reserved : List UTXO) (c0 : ChangeBucket)
    (rest : List ChangeBucket)
    (heng : env.utxodbReserve [mkSource reserver assetAmount] ttl =
      .ok (reserved, c0 :: rest))
    (hzero : c0.amount = 0)
    (hres : Reserve env flips draws reserver assetAmount ttl st = .ok res st') :
    breakupChange flips draws 0 = .ok [] ∧ res.change = [] := by
  refine ⟨breakupChange_zero flips draws, ?_⟩
  obtain ⟨reserved', change', items, heng', hitems, hrc⟩ :=
    Reserve_ok_inv env flips draws reserver assetAmount ttl st res st' hres
  rw [heng] at heng'
  injection heng' with hpair
  injection hpair with h1 h2
  subst h1
  subst h2
  obtain ⟨amts, dests, hbc, hmc, hval⟩ :=
    reserveChange_ok_inv env flips draws reserver assetAmount st items c0 rest res st' hrc
  rw [hzero, breakupChange_zero] at hbc
  injection hbc with hamts
  subst hamts
  rw [makeChange] at hmc
  injection hmc with hp
  injection hp with hd hs
  rw [hval]
  exact hd.symm

theorem claim_C10_witness :
    breakupChange (fun _ => 1) (fun _ => 0) 0 = .ok [] ∧
    (⟨[], []⟩ : ReserveResult).change = [] :=
  claim_C10 (mkTestEnv (.ok ([], [⟨7, 0⟩])) (.ok testAccount) (.ok []) ccpCounter)
    (fun _ => 1) (fun _ => 0) testReserver aaReq 60 0 ⟨[], []⟩ 0 [] ⟨7, 0⟩ []
    (by decide) (by decide) (by decide)

/-- C8: NewAccountDestination, on success, returns a Destination carrying
exactly the given asset amount and metadata and exposing, via its
receiver's PKScript, exactly the control program the directory allocated
during this call; allocation failures are returned unchanged and no
destination is produced. -/
theorem claim_C8 {σ : Type} (env : Env σ) (st : σ) (assetAmount : AssetAmount)
    (accountID : String) (metadata : List Nat) :
    (∀ acp st', env.createControlProgram st accountID = .ok (acp, st') →
      NewAccountDestination env st assetAmount accountID metadata =
        .ok (⟨assetAmount, metadata, NewAccountReceiver acp accountID⟩, st') ∧
      (NewAccountReceiver acp accountID).PKScript = acp) ∧
    (∀ e, env.createControlProgram st accountID = .error e →
      NewAccountDestination env st assetAmount accountID metadata = .error e) := by
  constructor
  · intro acp st' h
    rw [NewAccountDestination, h]
    exact ⟨rfl, rfl⟩
  · intro e h
    rw [NewAccountDestination, h]

theorem breakupChange_ok {flips draws : Nat → Nat} {total : Nat} {amounts : List Nat}
    (h : breakupChange flips draws total = .ok amounts) :
    amounts.sum = total ∧ (∀ x ∈ amounts, 0 < x) ∧ (0 < total → amounts ≠ []) :=
  breakupChangeLoop_ok flips draws total 0 total amounts h

theorem Reserve_ok_inv2 {σ : Type} (env : Env σ) (flips draws : Nat → Nat)
    (reserver : AccountReserver) (assetAmount : AssetAmount) (ttl : Nat) (st : σ)
    (res : ReserveResult) (st' : σ) (reserved : List UTXO) (change : List ChangeBucket)
    (heng : env.utxodbReserve [mkSource reserver assetAmount] ttl = .ok (reserved, change))
    (hres : Reserve env flips draws reserver assetAmount ttl st = .ok res st') :
    ∃ items, buildItems env reserved = .ok items ∧
      reserveChange env flips draws reserver assetAmount st items change = .ok res st' := by
  obtain ⟨reserved', change', items, heng', hitems, hrc⟩ :=
    Reserve_ok_inv env flips draws reserver assetAmount ttl st res st' hres
  rw [heng] at heng'
  injection heng' with hpair
  injection hpair with h1 h2
  subst h1
  subst h2
  exact ⟨items, hitems, hrc⟩

def envC1 : Env Nat :=
  mkTestEnv (.ok ([u3], [b1, b1])) (.ok testAccount) (.ok [1, 2, 3]) ccpCounter

/-- The result Reserve computes in the C1 counterexample run: it claims
the 3-unit output but returns change totaling only the first bucket's 1. -/
def resC1 : ReserveResult :=
  ⟨[⟨⟨5, 0, 7, 3, [1, 2]⟩, ⟨7, 3, [13, 14], 2, [[1, 2, 3]]⟩⟩],
   [⟨⟨7, 1⟩, [], ⟨[0], "acc1"⟩⟩]⟩

/-- C1 counterexample: an engine run that satisfies the stated contract —
reserved amounts sum to the requested amount plus the sum of ALL change
buckets (3 = 1 + 1 + 1) — but spreads the excess over two buckets.
Reserve reads only change[0], so the returned items total 3 while
requested + returned change = 1 + 1 = 2. -/
theorem claim_C1_counterexample :
    0 < aaReq.amount ∧
    envC1.utxodbReserve [mkSource testReserver aaReq] 60 = .ok ([u3], [b1, b1]) ∧
    ([u3].map UTXO.amount).sum =
      aaReq.amount + (([b1, b1]).map ChangeBucket.amount).sum ∧
    Reserve envC1 (fun _ => 1) (fun _ => 0) testReserver aaReq 60 0 = .ok resC1 1 ∧
    (resC1.items.map (fun it => it.txInput.amount)).sum ≠
      aaReq.amount + (resC1.change.map (fun d => d.assetAmount.amount)).sum := by
  refine ⟨by decide, by decide, by decide, by decide, by decide⟩

/-- C1 (amended): under the engine contract — reserved amounts sum to the
requested amount plus the total bucket change — strengthened with the
engine reporting at most one change bucket, every error-free Reserve
returns transaction inputs whose amounts sum to the requested amount plus
the sum of the returned change destinations. -/
theorem claim_C1_amended {σ : Type} (env : Env σ) (flips draws : Nat → Nat)
    (reserver : AccountReserver) (assetAmount : AssetAmount) (ttl : Nat) (st : σ)
    (res : ReserveResult) (st' : σ) (reserved : List UTXO) (change : List ChangeBucket)
    (h0 : 0 < assetAmount.amount)
    (heng : env.utxodbReserve [mkSource reserver assetAmount] ttl = .ok (reserved, change))
    (hcontract : (reserved.map UTXO.amount).sum =
      assetAmount.amount + (change.map ChangeBucket.amount).sum)
    (hone : change.length ≤ 1)
    (hres : Reserve env flips draws reserver assetAmount ttl st = .ok res st') :
    (res.items.map (fun it => it.txInput.amount)).sum =
      assetAmount.amount + (res.change.map (fun d => d.assetAmount.amount)).sum := by
  obtain ⟨items, hitems, hrc⟩ := Reserve_ok_inv2 env flips draws reserver assetAmount
    ttl st res st' reserved change heng hres
  have hamt := buildItems_amounts env reserved items hitems
  cases change with
  | nil =>
    obtain ⟨hresval, -⟩ := reserveChange_nil_inv env flips draws reserver assetAmount
      st items res st' hrc
    subst hresval
    simp only [List.map_nil, List.sum_nil] at hcontract ⊢
    rw [hamt, hcontract]
  | cons c0 rest =>
    have hrest : rest = [] := by
      cases rest with
      | nil => rfl
      | cons a b => simp at hone
    subst hrest
    obtain ⟨amts, dests, hbc, hmc, hval⟩ := reserveChange_ok_inv env flips draws reserver
      assetAmount st items c0 [] res st' hrc
    obtain ⟨hsum, -, -⟩ := breakupChange_ok hbc
    obtain ⟨hmap, -⟩ := makeChange_ok env assetAmount.assetID reserver.accountID
      amts st dests st' hmc
    subst hval
    simp only [List.map_cons, List.map_nil, List.sum_cons, List.sum_nil] at hcontract
    rw [hamt, hmap, hsum]
    omega

def envC1b : Env Nat :=
  mkTestEnv (.ok ([u3], [b2])) (.ok testAccount) (.ok [1, 2, 3]) ccpCounter

/-- The result Reserve computes in the C1 witness run. -/
def resC1b : ReserveResult :=
  ⟨[⟨⟨5, 0, 7, 3, [1, 2]⟩, ⟨7, 3, [13, 14], 2, [[1, 2, 3]]⟩⟩],
   [⟨⟨7, 2⟩, [], ⟨[0], "acc1"⟩⟩]⟩

theorem claim_C1_amended_witness :
    (resC1b.items.map (fun it => it.txInput.amount)).sum =
      aaReq.amount + (resC1b.change.map (fun d => d.assetAmount.amount)).sum :=
  claim_C1_amended envC1b (fun _ => 1) (fun _ => 0) testReserver aaReq 60 0 resC1b 1
    [u3] [b2] (by decide) (by decide) (by decide) (by decide) (by decide)

/-- C3: with a non-empty bucket list the tail is never consulted —
replacing it changes nothing — and on success the change destinations are
exactly one freshly allocated account-owned destination per breakupChange
piece of the FIRST bucket's amount, in order (1..k pieces, all positive,
k ≥ 1 whenever the bucket amount is positive). -/
theorem claim_C3 {σ : Type} (env : Env σ) (flips draws : Nat → Nat)
    (reserver : AccountReserver) (assetAmount : AssetAmount) (ttl : Nat) (st : σ)
    (reserved : List UTXO) (c0 : ChangeBucket) (rest rest' : List ChangeBucket)
    (items : List ReserveResultItem) (res : ReserveResult) (st' : σ)
    (heng : env.utxodbReserve [mkSource reserver assetAmount] ttl =
      .ok (reserved, c0 :: rest))
    (hitems : buildItems env reserved = .ok items)
    (hres : Reserve env flips draws reserver assetAmount ttl st = .ok res st') :
    reserveChange env flips draws reserver assetAmount st items (c0 :: rest) =
      reserveChange env flips draws reserver assetAmount st items (c0 :: rest') ∧
    ∃ amts, breakupChange flips draws c0.amount = .ok amts ∧
      (∀ x ∈ amts, 0 < x) ∧ (0 < c0.amount → amts ≠ []) ∧
      makeChange env assetAmount.assetID reserver.accountID st amts =
        .ok (res.change, st') ∧
      res.items = items ∧
      res.change.map (fun d => d.assetAmount.amount) = amts ∧
      ∀ d ∈ res.change, d.assetAmount.assetID = assetAmount.assetID ∧
        d.receiver.accountID = reserver.accountID := by
  refine ⟨rfl, ?_⟩
  obtain ⟨items', hitems', hrc⟩ := Reserve_ok_inv2 env flips draws reserver assetAmount
    ttl st res st' reserved (c0 :: rest) heng hres
  rw [hitems] at hitems'
  injection hitems' with hi
  subst hi
  obtain ⟨amts, dests, hbc, hmc, hval⟩ := reserveChange_ok_inv env flips draws reserver
    assetAmount st items c0 rest res st' hrc
  obtain ⟨-, hpos, hne⟩ := breakupChange_ok hbc
  obtain ⟨hmap, hall⟩ := makeChange_ok env assetAmount.assetID reserver.accountID
    amts st dests st' hmc
  subst hval
  refine ⟨amts, hbc, hpos, hne, hmc, rfl, hmap, ?_⟩
  intro d hd
  obtain ⟨ha, hb, -⟩ := hall d hd
  exact ⟨ha, hb⟩

def envC3 : Env Nat :=
  mkTestEnv (.ok ([], [b50, b1])) (.ok testAccount) (.ok []) ccpCounter

/-- The result Reserve computes in the C3 witness run. -/
def resC3 : ReserveResult := ⟨[], [⟨⟨7, 50⟩, [], ⟨[0], "acc1"⟩⟩]⟩

theorem claim_C3_witness :
    reserveChange envC3 (fun _ => 1) (fun _ => 0) testReserver aaReq 0 [] [b50, b1] =
      reserveChange envC3 (fun _ => 1) (fun _ => 0) testReserver aaReq 0 [] [b50] ∧
    ∃ amts, breakupChange (fun _ => 1) (fun _ => 0) b50.amount = .ok amts ∧
      (∀ x ∈ amts, 0 < x) ∧ (0 < b50.amount → amts ≠ []) ∧
      makeChange envC3 aaReq.assetID testReserver.accountID 0 amts =
        .ok (resC3.change, 1) ∧
      resC3.items = [] ∧
      resC3.change.map (fun d => d.assetAmount.amount) = amts ∧
      ∀ d ∈ resC3.change, d.assetAmount.assetID = aaReq.assetID ∧
        d.receiver.accountID = testReserver.accountID :=
  claim_C3 envC3 (fun _ => 1) (fun _ => 0) testReserver aaReq 60 0 [] b50 [b1] []
    [] resC3 1 (by decide) (by decide) (by decide)

/-- C4: each result item pairs with its reserved output in order: the
spend input copies outpoint, asset, amount and prevout script; the
template input copies asset and amount, carries the signer placeholders
derived from the account's xpubs along the account key-space path at the
output's control-program index, the account's quorum, and the
quorum-of-N redeem script built from the raw public keys of the xpubs
derived along that same path, attached as witness data. -/
theorem claim_C4 {σ : Type} (env : Env σ) (flips draws : Nat → Nat)
    (reserver : AccountReserver) (assetAmount : AssetAmount) (ttl : Nat) (st : σ)
    (res : ReserveResult) (st' : σ) (reserved : List UTXO) (change : List ChangeBucket)
    (heng : env.utxodbReserve [mkSource reserver assetAmount] ttl =
      .ok (reserved, change))
    (hres : Reserve env flips draws reserver assetAmount ttl st = .ok res st') :
    List.Forall₂ (fun (r : UTXO) (item : ReserveResultItem) =>
      item.txInput = ⟨r.hash, r.index, r.assetID, r.amount, r.script⟩ ∧
      ∃ acct redeemScript,
        env.accountsFind r.accountID = .ok acct ∧
        env.multiSigScript (env.xPubKeys (env.deriveXPubs acct.xpubs
          (env.signersPath acct r.controlProgramIndex))) acct.quorum =
          .ok redeemScript ∧
        item.templateInput = ⟨r.assetID, r.amount,
          env.inputSigs acct.xpubs (env.signersPath acct r.controlProgramIndex),
          acct.quorum, [redeemScript]⟩)
      reserved res.items := by
  obtain ⟨items, hitems, hrc⟩ := Reserve_ok_inv2 env flips draws reserver assetAmount
    ttl st res st' reserved change heng hres
  have hri : res.items = items := by
    cases change with
    | nil =>
      obtain ⟨hresval, -⟩ := reserveChange_nil_inv env flips draws reserver assetAmount
        st items res st' hrc
      rw [hresval]
    | cons c0 rest =>
      obtain ⟨amts, dests, -, -, hval⟩ := reserveChange_ok_inv env flips draws reserver
        assetAmount st items c0 rest res st' hrc
      rw [hval]
  rw [hri]
  refine List.Forall₂.imp ?_ (buildItems_ok env reserved items hitems)
  intro r item hb
  obtain ⟨acct, redeemScript, hfind, hms, hval⟩ := buildItem_ok env r item hb
  subst hval
  exact ⟨rfl, acct, redeemScript, hfind, hms, rfl⟩

def envC4 : Env Nat :=
  mkTestEnv (.ok ([u3], [])) (.ok testAccount) (.ok [1, 2, 3]) ccpCounter

/-- The result Reserve computes in the C4 witness run. -/
def resC4 : ReserveResult :=
  ⟨[⟨⟨5, 0, 7, 3, [1, 2]⟩, ⟨7, 3, [13, 14], 2, [[1, 2, 3]]⟩⟩], []⟩

theorem claim_C4_witness :
    List.Forall₂ (fun (r : UTXO) (item : ReserveResultItem) =>
      item.txInput = ⟨r.hash, r.index, r.assetID, r.amount, r.script⟩ ∧
      ∃ acct redeemScript,
        envC4.accountsFind r.accountID = .ok acct ∧
        envC4.multiSigScript (envC4.xPubKeys (envC4.deriveXPubs acct.xpubs
          (envC4.signersPath acct r.controlProgramIndex))) acct.quorum =
          .ok redeemScript ∧
        item.templateInput = ⟨r.assetID, r.amount,
          envC4.inputSigs acct.xpubs (envC4.signersPath acct r.controlProgramIndex),
          acct.quorum, [redeemScript]⟩)
      [u3] resC4.items :=
  claim_C4 envC4 (fun _ => 1) (fun _ => 0) testReserver aaReq 60 0 resC4 0 [u3] []
    (by decide) (by decide)

theorem claim_C8_witness :
    (NewAccountDestination (mkTestEnv (.ok ([], [])) (.ok testAccount) (.ok []) ccpCounter)
        0 ⟨7, 50⟩ "acc1" [3, 4] =
      .ok (⟨⟨7, 50⟩, [3, 4], NewAccountReceiver [0] "acc1"⟩, 1) ∧
      (NewAccountReceiver [0] "acc1").PKScript = [0]) ∧
    NewAccountDestination (mkTestEnv (.ok ([], [])) (.ok testAccount) (.ok []) ccpFail)
        0 ⟨7, 50⟩ "acc1" [3, 4] = .error ⟨9, ["storage failure"]⟩ :=
  ⟨(claim_C8 (mkTestEnv (.ok ([], [])) (.ok testAccount) (.ok []) ccpCounter)
      0 ⟨7, 50⟩ "acc1" [3, 4]).1 [0] 1 (by decide),
   (claim_C8 (mkTestEnv (.ok ([], [])) (.ok testAccount) (.ok []) ccpFail)
      0 ⟨7, 50⟩ "acc1" [3, 4]).2 ⟨9, ["storage failure"]⟩ (by decide)⟩

theorem buildItem_find_error {σ : Type} (env : Env σ) (r : UTXO) (e : GoErr)
    (h : env.accountsFind r.accountID = .error e) :
    buildItem env r = .error (wrapErr "get account info" e) := by
  rw [buildItem, h]

theorem buildItem_script_error {σ : Type} (env : Env σ) (r : UTXO) (acct : Account)
    (e : GoErr) (hfind : env.accountsFind r.accountID = .ok acct)
    (hms : env.multiSigScript (env.xPubKeys (env.deriveXPubs acct.xpubs
      (env.signersPath acct r.controlProgramIndex))) acct.quorum = .error e) :
    buildItem env r = .error (wrapErr "compute redeem script" e) := by
  rw [buildItem, hfind]
  simp only []
  rw [hms]

theorem buildItems_cons_error {σ : Type} (env : Env σ) (r : UTXO) (rs : List UTXO)
    (e : GoErr) (h : buildItem env r = .error e) :
    buildItems env (r :: rs) = .error e := by
  rw [buildItems, h]

theorem NewAccountDestination_error {σ : Type} (env : Env σ) (st : σ)
    (assetAmount : AssetAmount) (accountID : String) (metadata : List Nat) (e : GoErr)
    (h : env.createControlProgram st accountID = .error e) :
    NewAccountDestination env st assetAmount accountID metadata = .error e := by
  rw [NewAccountDestination, h]

theorem makeChange_cons_error {σ : Type} (env : Env σ) (aid : Nat) (accountID : String)
    (st : σ) (amt : Nat) (amts : List Nat) (e : GoErr)
    (h : NewAccountDestination env st ⟨aid, amt⟩ accountID [] = .error e) :
    makeChange env aid accountID st (amt :: amts) =
      .error (wrapErr "creating change destination" e) := by
  rw [makeChange, h]

theorem Reserve_engine_error {σ : Type} (env : Env σ) (flips draws : Nat → Nat)
    (reserver : AccountReserver) (assetAmount : AssetAmount) (ttl : Nat) (st : σ)
    (e : GoErr) (h : env.utxodbReserve [mkSource reserver assetAmount] ttl = .error e) :
    Reserve env flips draws reserver assetAmount ttl st = .err e := by
  rw [Reserve, h]

theorem Reserve_buildItems_error {σ : Type} (env : Env σ) (flips draws : Nat → Nat)
    (reserver : AccountReserver) (assetAmount : AssetAmount) (ttl : Nat) (st : σ)
    (reserved : List UTXO) (change : List ChangeBucket) (e : GoErr)
    (heng : env.utxodbReserve [mkSource reserver assetAmount] ttl = .ok (reserved, change))
    (hb : buildItems env reserved = .error e) :
    Reserve env flips draws reserver assetAmount ttl st = .err e := by
  rw [Reserve, heng]
  simp only []
  rw [hb]

theorem Reserve_to_reserveChange {σ : Type} (env : Env σ) (flips draws : Nat → Nat)
    (reserver : AccountReserver) (assetAmount : AssetAmount) (ttl : Nat) (st : σ)
    (reserved : List UTXO) (change : List ChangeBucket) (items : List ReserveResultItem)
    (heng : env.utxodbReserve [mkSource reserver assetAmount] ttl = .ok (reserved, change))
    (hitems : buildItems env reserved = .ok items) :
    Reserve env flips draws reserver assetAmount ttl st =
      reserveChange env flips draws reserver assetAmount st items change := by
  rw [Reserve, heng]
  simp only []
  rw [hitems]

theorem reserveChange_makeChange_error {σ : Type} (env : Env σ) (flips draws : Nat → Nat)
    (reserver : AccountReserver) (assetAmount : AssetAmount) (st : σ)
    (items : List ReserveResultItem) (c0 : ChangeBucket) (rest : List ChangeBucket)
    (amts : List Nat) (e : GoErr)
    (hbc : breakupChange flips draws c0.amount = .ok amts)
    (hmc : makeChange env assetAmount.assetID reserver.accountID st amts = .error e) :
    reserveChange env flips draws reserver assetAmount st items (c0 :: rest) = .err e := by
  rw [reserveChange, hbc]
  simp only []
  rw [hmc]

/-- C7: Reserve returns engine errors unchanged, and returns
account-lookup, redeem-script and change-allocation failures wrapped with
exactly the stage tags "get account info", "compute redeem script" and
"creating change destination", each preserving the underlying error kind;
the embedding performs each stage once, with no retry. -/
theorem claim_C7 {σ : Type} (env : Env σ) (flips draws : Nat → Nat)
    (reserver : AccountReserver) (assetAmount : AssetAmount) (ttl : Nat) (st : σ) :
    (∀ e, env.utxodbReserve [mkSource reserver assetAmount] ttl = .error e →
      Reserve env flips draws reserver assetAmount ttl st = .err e) ∧
    (∀ r rs change e,
      env.utxodbReserve [mkSource reserver assetAmount] ttl = .ok (r :: rs, change) →
      env.accountsFind r.accountID = .error e →
      Reserve env flips draws reserver assetAmount ttl st =
        .err ⟨e.kind, "get account info" :: e.msgs⟩) ∧
    (∀ r rs change acct e,
      env.utxodbReserve [mkSource reserver assetAmount] ttl = .ok (r :: rs, change) →
      env.accountsFind r.accountID = .ok acct →
      env.multiSigScript (env.xPubKeys (env.deriveXPubs acct.xpubs
        (env.signersPath acct r.controlProgramIndex))) acct.quorum = .error e →
      Reserve env flips draws reserver assetAmount ttl st =
        .err ⟨e.kind, "compute redeem script" :: e.msgs⟩) ∧
    (∀ c0 rest e,
      env.utxodbReserve [mkSource reserver assetAmount] ttl = .ok ([], c0 :: rest) →
      0 < c0.amount → c0.amount < 2 ^ 63 →
      (∀ s a, env.createControlProgram s a = .error e) →
      Reserve env flips draws reserver assetAmount ttl st =
        .err ⟨e.kind, "creating change destination" :: e.msgs⟩) := by
  refine ⟨?_, ?_, ?_, ?_⟩
  · intro e h
    exact Reserve_engine_error env flips draws reserver assetAmount ttl st e h
  · intro r rs change e heng hfind
    exact Reserve_buildItems_error env flips draws reserver assetAmount ttl st
      (r :: rs) change ⟨e.kind, "get account info" :: e.msgs⟩ heng
      (buildItems_cons_error env r rs _ (buildItem_find_error env r e hfind))
  · intro r rs change acct e heng hfind hms
    exact Reserve_buildItems_error env flips draws reserver assetAmount ttl st
      (r :: rs) change ⟨e.kind, "compute redeem script" :: e.msgs⟩ heng
      (buildItems_cons_error env r rs _
        (buildItem_script_error env r acct e hfind hms))
  · intro c0 rest e heng h0 hsmall hccp
    obtain ⟨amts, hamts⟩ :=
      breakupChangeLoop_exists_ok flips draws c0.amount 0 c0.amount le_rfl hsmall
    have hbc : breakupChange flips draws c0.amount = .ok amts := hamts
    obtain ⟨-, -, hne⟩ := breakupChange_ok hbc
    cases amts with
    | nil => exact absurd rfl (hne h0)
    | cons a as =>
      rw [Reserve_to_reserveChange env flips draws reserver assetAmount ttl st
        [] (c0 :: rest) [] heng rfl]
      exact reserveChange_makeChange_error env flips draws reserver assetAmount st
        [] c0 rest (a :: as) ⟨e.kind, "creating change destination" :: e.msgs⟩ hbc
        (makeChange_cons_error env assetAmount.assetID reserver.accountID st a as
          ⟨e.kind, e.msgs⟩
          (NewAccountDestination_error env st ⟨assetAmount.assetID, a⟩
            reserver.accountID [] ⟨e.kind, e.msgs⟩ (hccp st reserver.accountID)))

def envE : Env Nat :=
  mkTestEnv (.error ⟨1, ["engine failure"]⟩) (.ok testAccount) (.ok []) ccpCounter

def envF : Env Nat :=
  mkTestEnv (.ok ([u3], [])) (.error ⟨2, ["pg: no rows"]⟩) (.ok []) ccpCounter

def envM : Env Nat :=
  mkTestEnv (.ok ([u3], [])) (.ok testAccount) (.error ⟨3, ["quorum too big"]⟩) ccpCounter

def envA : Env Nat :=
  mkTestEnv (.ok ([], [b50])) (.ok testAccount) (.ok []) ccpFail

theorem claim_C7_witness :
    Reserve envE (fun _ => 1) (fun _ => 0) testReserver aaReq 60 0 =
      .err ⟨1, ["engine failure"]⟩ ∧
    Reserve envF (fun _ => 1) (fun _ => 0) testReserver aaReq 60 0 =
      .err ⟨2, ["get account info", "pg: no rows"]⟩ ∧
    Reserve envM (fun _ => 1) (fun _ => 0) testReserver aaReq 60 0 =
      .err ⟨3, ["compute redeem script", "quorum too big"]⟩ ∧
    Reserve envA (fun _ => 1) (fun _ => 0) testReserver aaReq 60 0 =
      .err ⟨9, ["creating change destination", "storage failure"]⟩ :=
  ⟨(claim_C7 envE (fun _ => 1) (fun _ => 0) testReserver aaReq 60 0).1
      ⟨1, ["engine failure"]⟩ (by decide),
   (claim_C7 envF (fun _ => 1) (fun _ => 0) testReserver aaReq 60 0).2.1
      u3 [] [] ⟨2, ["pg: no rows"]⟩ (by decide) (by decide),
   (claim_C7 envM (fun _ => 1) (fun _ => 0) testReserver aaReq 60 0).2.2.1
      u3 [] [] testAccount ⟨3, ["quorum too big"]⟩ (by decide) (by decide) (by decide),
   (claim_C7 envA (fun _ => 1) (fun _ => 0) testReserver aaReq 60 0).2.2.2
      b50 [] ⟨9, ["storage failure"]⟩ (by decide) (by decide) (by decide)
      (fun _ _ => rfl)⟩

/-- C6: LoadAccountInfo succeeds whatever rows the batched query returns
— in particular when some or all programs are unmatched — and returns an
error exactly when the query itself fails, in which case the error is
passed through and no result is produced. -/
theorem claim_C6 (query : List (List Nat) → Except GoErr (List IndexRow))
    (outs : List StateOutput) :
    (∀ rows, query (distinctScripts outs) = .ok rows →
      LoadAccountInfo query outs = .ok (rows.flatMap (annotateRow outs))) ∧
    (∀ e, query (distinctScripts outs) = .error e →
      LoadAccountInfo query outs = .error e) := by
  constructor
  · intro rows h
    rw [LoadAccountInfo, h]
  · intro e h
    rw [LoadAccountInfo, h]

def outA : StateOutput := ⟨11, 0, 7, 10, [1]⟩

def outB : StateOutput := ⟨12, 1, 7, 20, [1]⟩

def outC : StateOutput := ⟨13, 0, 7, 30, [2]⟩

def outsW : List StateOutput := [outA, outB, outC]

def row1 : IndexRow := ⟨"acc1", [0, 5], [1]⟩

def queryW : List (List Nat) → Except GoErr (List IndexRow) := fun _ => .ok [row1]

def queryE : List (List Nat) → Except GoErr (List IndexRow) :=
  fun _ => .error ⟨4, ["db down"]⟩

/-- The annotations LoadAccountInfo computes in the C5/C6 witness runs:
outputs A and B (program [1]) annotated with acc1/[0,5]; C dropped. -/
def resultW : List AnnotatedOutput := [⟨outA, "acc1", [0, 5]⟩, ⟨outB, "acc1", [0, 5]⟩]

theorem claim_C6_witness :
    LoadAccountInfo queryW outsW = .ok ([row1].flatMap (annotateRow outsW)) ∧
    LoadAccountInfo queryE outsW = .error ⟨4, ["db down"]⟩ :=
  ⟨(claim_C6 queryW outsW).1 [row1] rfl,
   (claim_C6 queryE outsW).2 ⟨4, ["db down"]⟩ rfl⟩

/-- C5: provided the index holds at most one row per control program, each
input group sharing one program yields either 0 annotated outputs (no
matching row) or exactly the group's size, all carrying the matching
row's account ID and key-index path; and every annotation originates from
a returned row, so unresolved outputs are dropped, never defaulted. -/
theorem claim_C5 (query : List (List Nat) → Except GoErr (List IndexRow))
    (outs : List StateOutput) (rows : List IndexRow) (result : List AnnotatedOutput)
    (hq : query (distinctScripts outs) = .ok rows)
    (huniq : ∀ p : List Nat, (rows.filter fun row => row.program == p).length ≤ 1)
    (hres : LoadAccountInfo query outs = .ok result) :
    (∀ p : List Nat, (∀ row ∈ rows, row.program ≠ p) →
      result.filter (fun a => a.out.controlProgram == p) = []) ∧
    (∀ p : List Nat, ∀ row ∈ rows, row.program = p →
      (result.filter (fun a => a.out.controlProgram == p)).length =
        (outs.filter (fun o => o.controlProgram == p)).length ∧
      ∀ a ∈ result, a.out.controlProgram = p →
        a.accountID = row.accountID ∧ a.keyIndex = row.keyIndex) ∧
    (∀ a ∈ result, ∃ row ∈ rows, a.out.controlProgram = row.program ∧
      a.accountID = row.accountID ∧ a.keyIndex = row.keyIndex) := by
  have hr : result = rows.flatMap (annotateRow outs) := by
    rw [LoadAccountInfo, hq] at hres
    exact (Except.ok.inj hres).symm
  subst hr
  refine ⟨?_, ?_, ?_⟩
  · intro p hnone
    have hzero : (rows.filter fun row => row.program == p) = [] :=
      List.filter_eq_nil_iff.mpr (fun row hrow => by simpa using hnone row hrow)
    have hlen := length_filter_flatMap_annotateRow outs p rows
    rw [hzero] at hlen
    simp only [List.length_nil, Nat.zero_mul] at hlen
    exact List.length_eq_zero.mp hlen
  · intro p row hrow hp
    constructor
    · have hle := huniq p
      have hmem : row ∈ rows.filter fun row => row.program == p :=
        List.mem_filter.mpr ⟨hrow, by simpa using hp⟩
      have hpos : 0 < (rows.filter fun row => row.program == p).length :=
        List.length_pos.mpr (List.ne_nil_of_mem hmem)
      have hone : (rows.filter fun row => row.program == p).length = 1 := by omega
      rw [length_filter_flatMap_annotateRow outs p rows, hone, one_mul]
    · intro a ha hap
      obtain ⟨row', hrow', hprog, hacc, hkey, -⟩ := mem_flatMap_annotateRow outs rows a ha
      have hrr : row' = row := by
        apply mem_of_length_le_one (huniq p)
        · refine List.mem_filter.mpr ⟨hrow', ?_⟩
          simp only [beq_iff_eq]
          rw [← hprog]
          exact hap
        · exact List.mem_filter.mpr ⟨hrow, by simpa using hp⟩
      rw [hacc, hkey, hrr]
      exact ⟨rfl, rfl⟩
  · intro a ha
    obtain ⟨row, hrow, h1, h2, h3, -⟩ := mem_flatMap_annotateRow outs rows a ha
    exact ⟨row, hrow, h1, h2, h3⟩

theorem claim_C5_witness :
    resultW.filter (fun a => a.out.controlProgram == [2]) = [] ∧
    (resultW.filter (fun a => a.out.controlProgram == [1])).length =
      (outsW.filter (fun o => o.controlProgram == [1])).length := by
  have h := claim_C5 queryW outsW [row1] resultW rfl
    (fun p => List.length_filter_le _ _) (by decide)
  exact ⟨h.1 [2] (by decide), (h.2.1 [1] row1 (by decide) rfl).1⟩

end ChainAsset
